import Mathlib

/-
Verification of the podcast-go interactive downloader.

The Go sources contain two parallel builds of the same program: a terminal
build (main.go at the repository root) and a windowed build (cmd/gui/main.go).
Both share the data model, the search aggregator, the filename sanitizer, the
feed parser and the download step; they differ in how the batch loop reacts to
a per-episode failure and in what the already-downloaded fast path emits, so
both variants are embedded below where they differ.

Strings are embedded as List Char.  Display-only fields of the terminal
model (spinner, progress-bar widget, loading message) are omitted; every
field that the transition logic reads or writes is kept.
-/

namespace PodcastGo

/-- Which podcast catalog produced a search result (SearchProvider in the Go source). -/
inductive SearchProvider
  | apple
  | podcastIndex
deriving DecidableEq

/-- One podcast candidate from a catalog query (SearchResult in the Go source). -/
structure SearchResult where
  id : List Char
  name : List Char
  artist : List Char
  feedURL : List Char
  artworkURL : List Char
  source : SearchProvider
deriving DecidableEq

/-- Metadata of the chosen podcast (PodcastInfo in the Go source). -/
structure PodcastInfo where
  name : List Char
  artist : List Char
  feedURL : List Char
  artworkURL : List Char
  id : List Char
deriving DecidableEq

/-- One enclosure-bearing feed item episode (Episode in the Go source;
the time.Time publication date is an external type and is not modelled). -/
structure Episode where
  index : Nat
  title : List Char
  description : List Char
  audioURL : List Char
  duration : List Char
  selected : Bool
deriving DecidableEq

/-- strings.TrimSuffix(u, "/"): removes one trailing slash when present. -/
def trimSuffixSlash (u : List Char) : List Char :=
  if u.getLast? = some '/' then u.dropLast else u

/-- Feed-URL normalization used by the dual-provider merge:
strings.ToLower(strings.TrimSuffix(r.FeedURL, "/")). -/
def normalizeFeedURL (u : List Char) : List Char :=
  (trimSuffixSlash u).map Char.toLower

/-- One iteration of the merge loops in searchBoth: append the result unless its
normalized feed URL is already in the seen set. -/
def addUnique (st : List SearchResult × List (List Char)) (r : SearchResult) :
    List SearchResult × List (List Char) :=
  if normalizeFeedURL r.feedURL ∈ st.2 then st
  else (st.1 ++ [r], normalizeFeedURL r.feedURL :: st.2)

/-- The merge of searchBoth when both providers returned: Apple results are
appended first in order, then Podcast Index results, sharing one seen set. -/
def combineResults (appleResults piResults : List SearchResult) : List SearchResult :=
  (piResults.foldl addUnique (appleResults.foldl addUnique ([], []))).1

/-- Recursive description of the dedup-append loop (proved equal to the folds). -/
def dedupFrom (seen : List (List Char)) : List SearchResult → List SearchResult
  | [] => []
  | r :: rs =>
    if normalizeFeedURL r.feedURL ∈ seen then dedupFrom seen rs
    else r :: dedupFrom (normalizeFeedURL r.feedURL :: seen) rs

/-- Seen set reached by the dedup-append loop. -/
def dedupSeen (seen : List (List Char)) : List SearchResult → List (List Char)
  | [] => seen
  | r :: rs =>
    if normalizeFeedURL r.feedURL ∈ seen then dedupSeen seen rs
    else dedupSeen (normalizeFeedURL r.feedURL :: seen) rs

/-- The combined error text of searchBoth when both providers failed:
fmt.Errorf("search failed: Apple: %v, Podcast Index: %v", appleErr, piErr). -/
def searchFailedText (ea eb : List Char) : List Char :=
  "search failed: Apple: ".toList ++ ea ++ ", Podcast Index: ".toList ++ eb

/-- searchBoth after the concurrent join, as a function of the two provider
outcomes: both failed yields the combined error; otherwise a failed provider
contributes nothing to the merge loops (its loop is guarded by err == nil). -/
def searchBothRes (apple pi : Except (List Char) (List SearchResult)) :
    Except (List Char) (List SearchResult) :=
  match apple, pi with
  | Except.error ea, Except.error eb => Except.error (searchFailedText ea eb)
  | _, _ =>
    let aRes := match apple with | Except.ok l => l | Except.error _ => []
    let bRes := match pi with | Except.ok l => l | Except.error _ => []
    Except.ok (combineResults aRes bRes)

/-- Whether an Except value is a success. -/
def isOkB {ε α : Type} : Except ε α → Bool
  | Except.ok _ => true
  | Except.error _ => false

/-- The character class stripped by sanitizeFilename. -/
def invalidFileChars : List Char := ['<', '>', ':', '"', '/', '\\', '|', '?', '*']

/-- Fallback name used when sanitization empties the string. -/
def fallbackName : List Char := "episode".toList

/-- Left half of strings.TrimSpace. -/
def trimLeadSpaces (l : List Char) : List Char := l.dropWhile Char.isWhitespace

/-- strings.TrimSpace: whitespace removed from both ends. -/
def trimSpaceChars (l : List Char) : List Char :=
  trimLeadSpaces ((trimLeadSpaces l.reverse).reverse)

/-- sanitizeFilename from the Go source: strip the invalid character class,
trim whitespace, truncate to 100, fall back to "episode" when empty. -/
def sanitizeFilename (name : List Char) : List Char :=
  let stripped := name.filter (fun c => !(invalidFileChars.contains c))
  let trimmed := trimSpaceChars stripped
  let limited := if trimmed.length > 100 then trimmed.take 100 else trimmed
  if limited = [] then fallbackName else limited

/-- isNumeric from the Go source: every rune is a digit and the string is nonempty. -/
def isNumeric (s : List Char) : Bool :=
  s.all (fun c => decide ('0' ≤ c) && decide (c ≤ '9')) && decide (s.length > 0)

/-- fmt %03d: decimal digits left-padded with zeros to width 3. -/
def pad3 (n : Nat) : List Char :=
  let s := (Nat.repr n).toList
  if s.length < 3 then List.replicate (3 - s.length) '0' ++ s else s

/-- fmt.Sprintf("%03d - %s.mp3", ep.Index, sanitizeFilename(ep.Title)). -/
def episodeFileName (ep : Episode) : List Char :=
  pad3 ep.index ++ " - ".toList ++ sanitizeFilename ep.title ++ ".mp3".toList

/-- filepath.Join of a directory and a file name. -/
def joinPath (a b : List Char) : List Char := a ++ ['/'] ++ b

/-
Download step.  The body of the read loop of downloadFileWithProgress: the
chunk sizes returned by resp.Body.Read drive the progress emissions.  A
progress value is sent only when the fraction advanced by at least 0.01
since the last emission or reached 1.0, and only when a total size was
declared (resp.ContentLength > 0).
-/

/-- The sequence of progress fractions emitted by the read loop of
downloadFileWithProgress, given the declared total size, the chunk sizes
still to read, the bytes already written, and the last emitted fraction. -/
def progressLoop (totalSize : Int) : List Nat → Int → ℚ → List ℚ
  | [], _, _ => []
  | n :: rest, downloaded, lastPercent =>
    if n > 0 then
      if totalSize > 0 then
        if 1/100 ≤ ((downloaded + (n : Int) : Int) : ℚ) / (totalSize : ℚ) - lastPercent
            ∨ 1 ≤ ((downloaded + (n : Int) : Int) : ℚ) / (totalSize : ℚ) then
          ((downloaded + (n : Int) : Int) : ℚ) / (totalSize : ℚ)
            :: progressLoop totalSize rest (downloaded + (n : Int))
                 (((downloaded + (n : Int) : Int) : ℚ) / (totalSize : ℚ))
        else progressLoop totalSize rest (downloaded + (n : Int)) lastPercent
      else progressLoop totalSize rest (downloaded + (n : Int)) lastPercent
    else progressLoop totalSize rest downloaded lastPercent

/-- All progress fractions emitted for one download (counters start at zero). -/
def downloadEvents (totalSize : Int) (chunks : List Nat) : List ℚ :=
  progressLoop totalSize chunks 0 0

/-- What the network returns for one download attempt: a transport failure on
http.Get, or a byte stream with its declared ContentLength, the chunk sizes
delivered, and an optional mid-stream read error. -/
inductive FetchOutcome
  | connectErr (e : List Char)
  | stream (totalSize : Int) (chunks : List Nat) (readErr : Option (List Char))
deriving DecidableEq

instance exceptDecEq {ε α : Type} [DecidableEq ε] [DecidableEq α] :
    DecidableEq (Except ε α) := fun a b =>
  match a, b with
  | Except.ok x, Except.ok y =>
    if h : x = y then isTrue (by rw [h]) else isFalse (fun he => h (Except.ok.inj he))
  | Except.error x, Except.error y =>
    if h : x = y then isTrue (by rw [h]) else isFalse (fun he => h (Except.error.inj he))
  | Except.ok _, Except.error _ => isFalse (fun he => Except.noConfusion he)
  | Except.error _, Except.ok _ => isFalse (fun he => Except.noConfusion he)

/-- Observable outcome of one call of the download step. -/
structure StepResult where
  result : Except (List Char) Unit
  events : List ℚ
  requests : Nat
deriving DecidableEq

/-- Result of the read loop: the mid-stream error when one occurred, nil otherwise. -/
def readResult (readErr : Option (List Char)) : Except (List Char) Unit :=
  match readErr with
  | some e => Except.error e
  | none => Except.ok ()

/-- downloadFileWithProgress of the terminal build: when the destination file
already exists it returns nil at once, sending nothing; otherwise it issues
one http.Get and streams the body, emitting progress via program.Send. -/
def downloadStepTUI (destExists : Bool) (fetch : FetchOutcome) : StepResult :=
  if destExists then { result := Except.ok (), events := [], requests := 0 }
  else
    match fetch with
    | FetchOutcome.connectErr e => { result := Except.error e, events := [], requests := 1 }
    | FetchOutcome.stream tot chunks readErr =>
      { result := readResult readErr, events := downloadEvents tot chunks, requests := 1 }

/-- downloadFileWithProgress of the windowed build: identical except that the
already-exists fast path invokes progressCallback(1.0) before returning. -/
def downloadStepGUI (destExists : Bool) (fetch : FetchOutcome) : StepResult :=
  if destExists then { result := Except.ok (), events := [1], requests := 0 }
  else
    match fetch with
    | FetchOutcome.connectErr e => { result := Except.error e, events := [], requests := 1 }
    | FetchOutcome.stream tot chunks readErr =>
      { result := readResult readErr, events := downloadEvents tot chunks, requests := 1 }

/-- Whether the destination file exists after one call of the download step:
os.Create runs once the connection succeeded, so only a transport failure
leaves no file behind. -/
def fileExistsAfter (destExists : Bool) (fetch : FetchOutcome) : Bool :=
  destExists ||
    match fetch with
    | FetchOutcome.connectErr _ => false
    | FetchOutcome.stream _ _ _ => true

/-
Feed parsing.  The loops over feed.Items in loadPodcast / parseRSSFeedItems.
-/

/-- A feed item enclosure: declared MIME type and URL. -/
structure Enclosure where
  encType : List Char
  url : List Char
deriving DecidableEq

/-- A parsed feed item (the fields the episode loop reads). -/
structure FeedItem where
  title : List Char
  description : List Char
  enclosures : List Enclosure
  duration : List Char
deriving DecidableEq

/-- Audio token searched for in the enclosure MIME type. -/
def audioToken : List Char := "audio".toList

/-- Suffix test applied to the enclosure URL. -/
def mp3Suffix : List Char := ".mp3".toList

/-- Whether the pattern matches at the head of the text. -/
def leadMatches : List Char → List Char → Bool
  | [], _ => true
  | _ :: _, [] => false
  | a :: as, b :: bs => a == b && leadMatches as bs

/-- strings.Contains: the pattern occurs somewhere in the text. -/
def hasSubstr (pat : List Char) : List Char → Bool
  | [] => pat.isEmpty
  | c :: rest => leadMatches pat (c :: rest) || hasSubstr pat rest

/-- strings.HasSuffix. -/
def endsWithChars (pat s : List Char) : Bool := leadMatches pat.reverse s.reverse

/-- The enclosure scan of the episode loop: first enclosure whose type
contains "audio" or whose URL ends in ".mp3"; empty when none matches. -/
def findAudioURL (encs : List Enclosure) : List Char :=
  match encs.find? (fun enc => hasSubstr audioToken enc.encType || endsWithChars mp3Suffix enc.url) with
  | some enc => enc.url
  | none => []

/-- Whether a feed item is kept by the episode loop. -/
def hasAudio (it : FeedItem) : Bool := !(findAudioURL it.enclosures).isEmpty

/-- The episode loop: for i, item := range feed.Items, keeping only items with
an audio enclosure, with Index assigned i+1 from the source position. -/
def parseItems : List FeedItem → Nat → List Episode
  | [], _ => []
  | item :: rest, i =>
    if findAudioURL item.enclosures = [] then parseItems rest (i + 1)
    else
      { index := i + 1, title := item.title, description := item.description,
        audioURL := findAudioURL item.enclosures, duration := item.duration,
        selected := false } :: parseItems rest (i + 1)

/-
ID3 tagging (addID3Tags).  The id3v2 library is external; the tag is modelled
as the record of fields the function writes.  AddFrame appends a frame.
-/

/-- The tag fields addID3Tags writes. -/
structure ID3Tag where
  title : List Char
  artist : List Char
  album : List Char
  trackFrames : List (List Char)
deriving DecidableEq

/-- id3v2.NewEmptyTag(). -/
def emptyID3Tag : ID3Tag := { title := [], artist := [], album := [], trackFrames := [] }

/-- addID3Tags: open the existing tag when possible, otherwise start empty;
set title/artist/album and append a track-number frame holding ep.Index. -/
def addID3Tags (openOk : Bool) (existing : ID3Tag) (ep : Episode) (info : PodcastInfo) : ID3Tag :=
  let tag := if openOk then existing else emptyID3Tag
  { tag with
    title := ep.title
    artist := info.artist
    album := info.name
    trackFrames := tag.trackFrames ++ [(Nat.repr ep.index).toList] }

/-
Session state machine (the Bubble Tea model of the terminal build).
-/

/-- The states of the session (the state constants of the Go source). -/
inductive AppState
  | loading
  | searchResults
  | previewPodcast
  | selecting
  | previewEpisode
  | downloading
  | done
  | error
deriving DecidableEq

/-- The Bubble Tea model.  The spinner, the progress-bar widget and the
loading message are display-only and omitted; every field the transition
logic reads or writes is kept. -/
structure Model where
  state : AppState
  podcastID : List Char
  searchQuery : List Char
  searchResults : List SearchResult
  podcastInfo : PodcastInfo
  episodes : List Episode
  cursor : Nat
  offset : Nat
  windowHeight : Nat
  errorMsg : List Char
  downloadIndex : Nat
  downloadTotal : Nat
  outputDir : List Char
  baseDir : List Char
  downloaded : List (List Char)
  percent : ℚ
  searchProvider : SearchProvider
deriving DecidableEq

/-- The messages the Update function dispatches on (spinner ticks, window
sizes and progress-bar frames are display-only and omitted). -/
inductive Msg
  | keyMsg (k : List Char)
  | searchResultsM (results : List SearchResult)
  | selectSearchResultM (r : SearchResult)
  | podcastLoadedM (info : PodcastInfo) (episodes : List Episode)
  | errMsg (e : List Char)
  | downloadProgressM (p : ℚ)
  | startDownloadM
  | downloadCompleteM (filename : List Char)
deriving DecidableEq

/-- The commands Update returns (tea.Cmd values, by what they do). -/
inductive Cmd
  | none
  | quit
  | downloadNext
  | emitStartDownload
  | emitSelectResult (r : SearchResult)
  | loadByID (id : List Char)
  | loadFromFeed (feedURL name artist artworkURL : List Char)
  | searchAppleCmd (query : List Char)
  | searchPICmd (query : List Char)
  | searchBothCmd (query : List Char)
deriving DecidableEq

/-- The empty PodcastInfo. -/
def emptyPodcastInfo : PodcastInfo :=
  { name := [], artist := [], feedURL := [], artworkURL := [], id := [] }

/-- Zero model all other models are built from. -/
def baseModel : Model :=
  { state := AppState.loading
    podcastID := []
    searchQuery := []
    searchResults := []
    podcastInfo := emptyPodcastInfo
    episodes := []
    cursor := 0
    offset := 0
    windowHeight := 24
    errorMsg := []
    downloadIndex := 0
    downloadTotal := 0
    outputDir := []
    baseDir := []
    downloaded := []
    percent := 0
    searchProvider := SearchProvider.apple }

/-- initialModel: a purely numeric input becomes the podcast ID, everything
else becomes the search query; the session starts in Loading. -/
def initialModel (input dir : List Char) (provider : SearchProvider) : Model :=
  let m := { baseModel with baseDir := dir, searchProvider := provider }
  if isNumeric input then { m with podcastID := input }
  else { m with searchQuery := input }

/-- Init: a nonempty search query triggers a search command (both providers
when credentials exist and no provider was forced, else the forced one);
otherwise the podcast ID is looked up.  The spinner tick of the tea.Batch is
display-only and omitted. -/
def initCommand (m : Model) (hasCreds : Bool) : Cmd :=
  if m.searchQuery ≠ [] then
    if hasCreds ∧ m.searchProvider = SearchProvider.apple then Cmd.searchBothCmd m.searchQuery
    else if m.searchProvider = SearchProvider.podcastIndex then Cmd.searchPICmd m.searchQuery
    else Cmd.searchAppleCmd m.searchQuery
  else Cmd.loadByID m.podcastID

/-- getSelectedEpisodes. -/
def getSelectedEpisodes (eps : List Episode) : List Episode :=
  eps.filter (fun ep => ep.selected)

/-- The task downloadNextCmd would run: nil when the cursor passed the end of
the selected subsequence, else the destination path and audio URL of the
episode at the cursor. -/
def downloadNextTask (m : Model) : Option (List Char × List Char) :=
  match (getSelectedEpisodes m.episodes)[m.downloadIndex]? with
  | some ep => some (joinPath m.outputDir (episodeFileName ep), ep.audioURL)
  | none => none

/-- handleSearchResultsKeys. -/
def handleSearchResultsKeys (m : Model) (k : List Char) : Model × Cmd :=
  let visibleItems := max (m.windowHeight - 10) 5
  match k with
  | ['c','t','r','l','+','c'] | ['q'] => (m, Cmd.quit)
  | ['u','p'] | ['k'] =>
    if m.cursor > 0 then
      let c := m.cursor - 1
      ({ m with cursor := c, offset := if c < m.offset then c else m.offset }, Cmd.none)
    else (m, Cmd.none)
  | ['d','o','w','n'] | ['j'] =>
    if m.cursor < m.searchResults.length - 1 then
      let c := m.cursor + 1
      ({ m with cursor := c
                offset := if c ≥ m.offset + visibleItems then c - visibleItems + 1 else m.offset },
       Cmd.none)
    else (m, Cmd.none)
  | ['e','n','t','e','r'] =>
    match m.searchResults[m.cursor]? with
    | some r => (m, Cmd.emitSelectResult r)
    | none => (m, Cmd.none)
  | ['v'] =>
    if m.cursor < m.searchResults.length then ({ m with state := AppState.previewPodcast }, Cmd.none)
    else (m, Cmd.none)
  | _ => (m, Cmd.none)

/-- handleSelectionKeys. -/
def handleSelectionKeys (m : Model) (k : List Char) : Model × Cmd :=
  let visibleItems := max (m.windowHeight - 12) 5
  match k with
  | ['c','t','r','l','+','c'] | ['q'] => (m, Cmd.quit)
  | ['e','s','c'] | ['b'] =>
    if m.searchResults.length > 0 then
      ({ m with state := AppState.searchResults, cursor := 0, offset := 0 }, Cmd.none)
    else (m, Cmd.quit)
  | ['u','p'] | ['k'] =>
    if m.cursor > 0 then
      let c := m.cursor - 1
      ({ m with cursor := c, offset := if c < m.offset then c else m.offset }, Cmd.none)
    else (m, Cmd.none)
  | ['d','o','w','n'] | ['j'] =>
    if m.cursor < m.episodes.length - 1 then
      let c := m.cursor + 1
      ({ m with cursor := c
                offset := if c ≥ m.offset + visibleItems then c - visibleItems + 1 else m.offset },
       Cmd.none)
    else (m, Cmd.none)
  | ['p','g','u','p'] =>
    let c := m.cursor - visibleItems
    ({ m with cursor := c, offset := c }, Cmd.none)
  | ['p','g','d','o','w','n'] =>
    let c0 := m.cursor + visibleItems
    let c := if c0 ≥ m.episodes.length then m.episodes.length - 1 else c0
    ({ m with cursor := c
              offset := if c ≥ m.offset + visibleItems then c - visibleItems + 1 else m.offset },
     Cmd.none)
  | [' '] | ['x'] =>
    match m.episodes[m.cursor]? with
    | some ep =>
      ({ m with episodes := m.episodes.set m.cursor { ep with selected := !ep.selected } }, Cmd.none)
    | none => (m, Cmd.none)
  | ['a'] =>
    let allSelected := m.episodes.all (fun ep => ep.selected)
    ({ m with episodes := m.episodes.map (fun ep => { ep with selected := !allSelected }) }, Cmd.none)
  | ['e','n','t','e','r'] =>
    if (getSelectedEpisodes m.episodes).length > 0 then
      ({ m with state := AppState.downloading
                downloadTotal := (getSelectedEpisodes m.episodes).length
                downloadIndex := 0
                outputDir := joinPath m.baseDir (sanitizeFilename m.podcastInfo.name) },
       Cmd.emitStartDownload)
    else (m, Cmd.none)
  | ['v'] =>
    if m.cursor < m.episodes.length then ({ m with state := AppState.previewEpisode }, Cmd.none)
    else (m, Cmd.none)
  | _ => (m, Cmd.none)

/-- The Update function of the terminal build. -/
def update (m : Model) (msg : Msg) : Model × Cmd :=
  match msg with
  | Msg.keyMsg k =>
    match m.state with
    | AppState.searchResults => handleSearchResultsKeys m k
    | AppState.previewPodcast =>
      match k with
      | ['e','s','c'] | ['b'] | ['v'] => ({ m with state := AppState.searchResults }, Cmd.none)
      | ['c','t','r','l','+','c'] | ['q'] => (m, Cmd.quit)
      | _ => (m, Cmd.none)
    | AppState.selecting => handleSelectionKeys m k
    | AppState.previewEpisode =>
      match k with
      | ['e','s','c'] | ['b'] | ['v'] => ({ m with state := AppState.selecting }, Cmd.none)
      | ['c','t','r','l','+','c'] | ['q'] => (m, Cmd.quit)
      | _ => (m, Cmd.none)
    | AppState.downloading =>
      match k with
      | ['e','s','c'] | ['b'] =>
        ({ m with state := AppState.selecting
                  downloadIndex := 0
                  downloadTotal := 0
                  percent := 0
                  downloaded := [] },
         Cmd.none)
      | ['c','t','r','l','+','c'] | ['q'] => (m, Cmd.quit)
      | _ => (m, Cmd.none)
    | AppState.done | AppState.error =>
      match k with
      | ['q'] | ['c','t','r','l','+','c'] | ['e','n','t','e','r'] => (m, Cmd.quit)
      | _ => (m, Cmd.none)
    | AppState.loading =>
      match k with
      | ['c','t','r','l','+','c'] | ['q'] => (m, Cmd.quit)
      | _ => (m, Cmd.none)
  | Msg.searchResultsM results =>
    if results.length = 0 then
      ({ m with state := AppState.error
                searchResults := results
                errorMsg := "No podcasts found for: ".toList ++ m.searchQuery },
       Cmd.none)
    else
      ({ m with state := AppState.searchResults, searchResults := results, cursor := 0, offset := 0 },
       Cmd.none)
  | Msg.selectSearchResultM r =>
    if r.source = SearchProvider.podcastIndex then
      ({ m with state := AppState.loading }, Cmd.loadFromFeed r.feedURL r.name r.artist r.artworkURL)
    else
      ({ m with state := AppState.loading, podcastID := r.id }, Cmd.loadByID r.id)
  | Msg.podcastLoadedM info eps =>
    ({ m with state := AppState.selecting, podcastInfo := info, episodes := eps, cursor := 0, offset := 0 },
     Cmd.none)
  | Msg.errMsg e => ({ m with state := AppState.error, errorMsg := e }, Cmd.none)
  | Msg.downloadProgressM p => ({ m with percent := p }, Cmd.none)
  | Msg.startDownloadM => (m, Cmd.downloadNext)
  | Msg.downloadCompleteM f =>
    let m2 := { m with downloaded := m.downloaded ++ [f]
                       downloadIndex := m.downloadIndex + 1
                       percent := 0 }
    if m2.downloadIndex < m2.downloadTotal then (m2, Cmd.downloadNext)
    else ({ m2 with state := AppState.done }, Cmd.none)

/-
Batch drivers.  The terminal build sequences downloads through the state
machine: downloadNextCmd runs one task, whose message (errorMsg on failure,
downloadCompleteMsg on success) is fed back into Update, and the loop
continues only while Update answers with another downloadNext command.  The
windowed build instead loops over the selected episodes directly, with
continue on a per-episode error.
-/

/-- Drive the terminal state machine through a batch: while the pending
command is downloadNext and a task remains, consume the next task outcome,
feed the resulting message to Update, and follow the returned command.
Returns the final model and the list of files written (a task writes its
file exactly when its download succeeded). -/
def runBatchTUI : List (Except (List Char) Unit) → Model → Cmd → Model × List (List Char)
  | [], m, _ => (m, [])
  | _ :: _, m, Cmd.none => (m, [])
  | o :: rest, m, Cmd.downloadNext =>
    (match downloadNextTask m with
     | none => (m, [])
     | some (path, _) =>
       match o with
       | Except.error e =>
         let s := update m (Msg.errMsg e)
         runBatchTUI rest s.1 s.2
       | Except.ok _ =>
         let s := update m (Msg.downloadCompleteM path)
         let r := runBatchTUI rest s.1 s.2
         (r.1, path :: r.2))
  | _ :: _, m, _ => (m, [])

/-- The download loop of the windowed build (startDownload): every selected
episode is attempted in order; a failed download is reported and skipped with
continue, a successful one leaves its file on disk and is tagged.  Each task
is paired with its network outcome; returns (files written, errors reported). -/
def runBatchGUI (outDir : List Char) :
    List (Episode × Except (List Char) Unit) → List (List Char) × List (List Char)
  | [] => ([], [])
  | (ep, o) :: rest =>
    let r := runBatchGUI outDir rest
    match o with
    | Except.error e => (r.1, e :: r.2)
    | Except.ok _ => (joinPath outDir (episodeFileName ep) :: r.1, r.2)

/-
Direct-identifier lookup (loadPodcast of the terminal build): one catalog
lookup against the Apple endpoint followed by one feed parse, producing the
message fed back into Update.
-/

/-- One record of the iTunes lookup response. -/
structure ItunesRecord where
  collectionID : Int
  collectionName : List Char
  artistName : List Char
  feedURL : List Char
  artworkURL600 : List Char
  artworkURL100 : List Char
deriving DecidableEq

/-- The iTunes lookup response. -/
structure ItunesResp where
  resultCount : Int
  results : List ItunesRecord
deriving DecidableEq

/-- strings.TrimPrefix(strings.ToLower(podcastID), "id"): lowercase, then
drop a leading id marker when present. -/
def stripIdToken (s : List Char) : List Char :=
  let low := s.map Char.toLower
  if low.take 2 = ['i', 'd'] then low.drop 2 else low

/-- loadPodcast as a function of its two network interactions: the catalog
lookup outcome (transport and decode folded into one Except) and the feed
parse outcome.  Exactly one lookup and at most one feed parse occur; the
result is the single message sent back into the state machine. -/
def loadPodcastMsg (podcastID : List Char) (lookup : Except (List Char) ItunesResp)
    (feedResult : Except (List Char) (List FeedItem)) : Msg :=
  let pid := stripIdToken podcastID
  match lookup with
  | Except.error e => Msg.errMsg ( "failed to lookup podcast: ".toList ++ e)
  | Except.ok resp =>
    if resp.resultCount = 0 then Msg.errMsg ( "no podcast found with ID: ".toList ++ pid)
    else
      match resp.results with
      | [] => Msg.errMsg ( "no podcast found with ID: ".toList ++ pid)
      | r :: _ =>
        let info : PodcastInfo :=
          { name := r.collectionName
            artist := r.artistName
            feedURL := r.feedURL
            artworkURL := if r.artworkURL600 = [] then r.artworkURL100 else r.artworkURL600
            id := [] }
        if r.feedURL = [] then Msg.errMsg ( "no RSS feed URL found for this podcast".toList)
        else
          match feedResult with
          | Except.error e => Msg.errMsg ( "failed to parse RSS feed: ".toList ++ e)
          | Except.ok items =>
            match parseItems items 0 with
            | [] => Msg.errMsg ( "no downloadable episodes found".toList)
            | e0 :: eps => Msg.podcastLoadedM info (e0 :: eps)

/-
Concrete values used by the closed evaluation theorems below.
-/

/-- A selected episode with ordinal index 1. -/
def sampleEpisodeA : Episode :=
  { index := 1, title := ['a'], description := [], audioURL := ['u'], duration := [],
    selected := true }

/-- A selected episode with ordinal index 2. -/
def sampleEpisodeB : Episode :=
  { index := 2, title := ['b'], description := [], audioURL := ['v'], duration := [],
    selected := true }

/-- An unselected episode with ordinal index 1. -/
def sampleUnselected : Episode :=
  { index := 1, title := ['c'], description := [], audioURL := ['w'], duration := [],
    selected := false }

/-- An episode carrying ordinal index 3 (left by two skipped or unselected
predecessors), itself selected. -/
def sampleEpisodeIdx3 : Episode :=
  { index := 3, title := ['d'], description := [], audioURL := ['z'], duration := [],
    selected := true }

/-- A session in Selecting with two selected episodes, ready to download. -/
def sampleSelecting : Model :=
  { baseModel with
    state := AppState.selecting
    episodes := [sampleEpisodeA, sampleEpisodeB]
    podcastInfo := { emptyPodcastInfo with name := ['p'] }
    baseDir := ['.'] }

/-- A session whose episode list is in a mixed selection state. -/
def sampleMixed : Model :=
  { baseModel with episodes := [sampleEpisodeA, sampleUnselected] }

/-- A session holding an episode whose stored ordinal index differs from its
position in the selected subsequence. -/
def sampleSkip : Model :=
  { baseModel with episodes := [sampleUnselected, sampleEpisodeIdx3], outputDir := ['o'] }

/-- The identifier input with the id marker, as the command line would pass it. -/
def sampleIdInput : List Char := "id1200361736".toList

/-- The same identifier without the marker. -/
def sampleNumericInput : List Char := "1200361736".toList

/-- One Apple search result. -/
def sampleResult : SearchResult :=
  { id := ['1'], name := ['n'], artist := [], feedURL := ['f'], artworkURL := [],
    source := SearchProvider.apple }

/-- An audio enclosure. -/
def sampleEnclosure : Enclosure := { encType := "audio/mpeg".toList, url := "e.mp3".toList }

/-- A feed item with no enclosure (skipped by the episode loop). -/
def sampleItemNoAudio : FeedItem :=
  { title := ['t'], description := [], enclosures := [], duration := [] }

/-- A feed item with an audio enclosure. -/
def sampleItemAudio : FeedItem :=
  { title := ['s'], description := [], enclosures := [sampleEnclosure], duration := [] }

/-
Lemmas about the dedup-append merge.
-/

lemma foldl_addUnique (l : List SearchResult) : ∀ acc seen,
    l.foldl addUnique (acc, seen) = (acc ++ dedupFrom seen l, dedupSeen seen l) := by
  induction l with
  | nil => intro acc seen; simp [dedupFrom, dedupSeen]
  | cons r rs ih =>
    intro acc seen
    by_cases h : normalizeFeedURL r.feedURL ∈ seen
    · simp [addUnique, dedupFrom, dedupSeen, h, ih]
    · simp [addUnique, dedupFrom, dedupSeen, h, ih]

lemma dedupFrom_append (A B : List SearchResult) : ∀ seen,
    dedupFrom seen (A ++ B) = dedupFrom seen A ++ dedupFrom (dedupSeen seen A) B := by
  induction A with
  | nil => intro seen; simp [dedupFrom, dedupSeen]
  | cons r rs ih =>
    intro seen
    by_cases h : normalizeFeedURL r.feedURL ∈ seen
    · simp [dedupFrom, dedupSeen, h, ih]
    · simp [dedupFrom, dedupSeen, h, ih]

lemma combineResults_eq (A B : List SearchResult) :
    combineResults A B = dedupFrom [] (A ++ B) := by
  simp [combineResults, foldl_addUnique, dedupFrom_append]

lemma dedupFrom_sublist : ∀ (l : List SearchResult) (seen : List (List Char)),
    (dedupFrom seen l).Sublist l := by
  intro l
  induction l with
  | nil => intro seen; simp [dedupFrom]
  | cons r rs ih =>
    intro seen
    by_cases h : normalizeFeedURL r.feedURL ∈ seen
    · simpa [dedupFrom, h] using (ih seen).cons r
    · simpa [dedupFrom, h] using (ih _).cons₂ r

lemma dedupFrom_countP (u : List Char) : ∀ (l : List SearchResult) (seen : List (List Char)),
    (dedupFrom seen l).countP (fun r => normalizeFeedURL r.feedURL == u)
      = if u ∈ seen then 0
        else if l.any (fun r => normalizeFeedURL r.feedURL == u) then 1 else 0 := by
  intro l
  induction l with
  | nil => intro seen; simp [dedupFrom]
  | cons r rs ih =>
    intro seen
    by_cases hn : normalizeFeedURL r.feedURL ∈ seen
    · rw [dedupFrom, if_pos hn, ih seen]
      by_cases hu : u ∈ seen
      · simp [hu]
      · have hne : (normalizeFeedURL r.feedURL == u) = false := by
          simp only [beq_eq_false_iff_ne, ne_eq]
          intro he; exact hu (he ▸ hn)
        simp [hu, hne]
    · rw [dedupFrom, if_neg hn]
      by_cases he : normalizeFeedURL r.feedURL = u
      · have h1 : u ∈ normalizeFeedURL r.feedURL :: seen := by simp [he]
        have h2 : u ∉ seen := fun hs => hn (he ▸ hs)
        simp [List.countP_cons, ih, h1, h2, he]
      · have h1 : (u ∈ normalizeFeedURL r.feedURL :: seen) ↔ (u ∈ seen) := by
          simp only [List.mem_cons]
          constructor
          · rintro (hx | hx)
            · exact absurd hx.symm he
            · exact hx
          · exact Or.inr
        have hne : (normalizeFeedURL r.feedURL == u) = false := by
          simpa using he
        simp [List.countP_cons, ih, h1, hne]

lemma dedupFrom_find (u : List Char) : ∀ (l : List SearchResult) (seen : List (List Char)),
    u ∉ seen →
    (dedupFrom seen l).find? (fun r => normalizeFeedURL r.feedURL == u)
      = l.find? (fun r => normalizeFeedURL r.feedURL == u) := by
  intro l
  induction l with
  | nil => intro seen _; simp [dedupFrom]
  | cons r rs ih =>
    intro seen hu
    by_cases hn : normalizeFeedURL r.feedURL ∈ seen
    · have hne : (normalizeFeedURL r.feedURL == u) = false := by
        simp only [beq_eq_false_iff_ne, ne_eq]
        intro he; exact hu (he ▸ hn)
      rw [dedupFrom, if_pos hn, ih seen hu]
      simp [List.find?_cons, hne]
    · rw [dedupFrom, if_neg hn]
      by_cases he : normalizeFeedURL r.feedURL = u
      · have htrue : (normalizeFeedURL r.feedURL == u) = true := by simpa using he
        simp [List.find?_cons, htrue]
      · have hne : (normalizeFeedURL r.feedURL == u) = false := by simpa using he
        have hu2 : u ∉ normalizeFeedURL r.feedURL :: seen := by
          simp only [List.mem_cons, not_or]
          exact ⟨fun hx => he hx.symm, hu⟩
        simp [List.find?_cons, hne, ih _ hu2]

/-- C2: the dual-provider merge appends Apple results first in order, then
Podcast Index results in order, discarding any result whose normalized feed
URL (lowercased, one trailing slash removed) was already seen from either
provider; the first occurrence wins, Apple entries take priority over
duplicate Podcast Index entries, and the merged list holds exactly one entry
per normalized feed URL occurring in the inputs. -/
theorem claim_C2 (A B : List SearchResult) :
    combineResults A B = dedupFrom [] (A ++ B)
    ∧ (combineResults A B).Sublist (A ++ B)
    ∧ (∀ u, (combineResults A B).countP (fun r => normalizeFeedURL r.feedURL == u)
        = if (A ++ B).any (fun r => normalizeFeedURL r.feedURL == u) then 1 else 0)
    ∧ (∀ u, (combineResults A B).find? (fun r => normalizeFeedURL r.feedURL == u)
        = (A ++ B).find? (fun r => normalizeFeedURL r.feedURL == u)) := by
  refine ⟨combineResults_eq A B, ?_, ?_, ?_⟩
  · rw [combineResults_eq]
    exact dedupFrom_sublist _ _
  · intro u
    rw [combineResults_eq, dedupFrom_countP]
    simp
  · intro u
    rw [combineResults_eq, dedupFrom_find u _ _ (by simp)]

/-- C3: the dual-provider search fails exactly when both providers failed;
when exactly one provider fails its results are treated as empty and the call
succeeds with the other provider's (deduplicated) results; when both fail the
error message contains both underlying failure texts. -/
theorem claim_C3 (x y : Except (List Char) (List SearchResult)) (ea eb : List Char)
    (A B : List SearchResult) :
    isOkB (searchBothRes x y) = (isOkB x || isOkB y)
    ∧ searchBothRes (Except.ok A) (Except.error eb) = Except.ok (dedupFrom [] A)
    ∧ searchBothRes (Except.error ea) (Except.ok B) = Except.ok (dedupFrom [] B)
    ∧ searchBothRes (Except.ok A) (Except.ok B) = Except.ok (combineResults A B)
    ∧ searchBothRes (Except.error ea) (Except.error eb) = Except.error (searchFailedText ea eb)
    ∧ List.IsInfix ea (searchFailedText ea eb)
    ∧ List.IsInfix eb (searchFailedText ea eb) := by
  refine ⟨?_, ?_, ?_, rfl, rfl, ?_, ?_⟩
  · cases x <;> cases y <;> rfl
  · show Except.ok (combineResults A []) = Except.ok (dedupFrom [] A)
    rw [combineResults_eq]
    simp
  · show Except.ok (combineResults [] B) = Except.ok (dedupFrom [] B)
    rw [combineResults_eq]
    simp
  · exact ⟨ "search failed: Apple: ".toList, ", Podcast Index: ".toList ++ eb,
      by simp [searchFailedText]⟩
  · exact ⟨ "search failed: Apple: ".toList ++ ea ++ ", Podcast Index: ".toList, [],
      by simp [searchFailedText]⟩

lemma mem_trimSpaceChars {c : Char} {l : List Char} (h : c ∈ trimSpaceChars l) : c ∈ l := by
  unfold trimSpaceChars trimLeadSpaces at h
  have h1 : c ∈ (List.dropWhile Char.isWhitespace l.reverse).reverse :=
    List.Sublist.mem h (List.dropWhile_sublist _)
  have h2 : c ∈ List.dropWhile Char.isWhitespace l.reverse := List.mem_reverse.mp h1
  have h3 : c ∈ l.reverse := List.Sublist.mem h2 (List.dropWhile_sublist _)
  exact List.mem_reverse.mp h3

/-- C6: for any input, the sanitized filename contains none of the stripped
character class, has length at most 100, and is never empty. -/
theorem claim_C6 (name : List Char) :
    (∀ c ∈ sanitizeFilename name, c ∉ invalidFileChars)
    ∧ (sanitizeFilename name).length ≤ 100
    ∧ sanitizeFilename name ≠ [] := by
  unfold sanitizeFilename
  by_cases hemp :
      (if (trimSpaceChars (name.filter (fun c => !(invalidFileChars.contains c)))).length > 100
       then (trimSpaceChars (name.filter (fun c => !(invalidFileChars.contains c)))).take 100
       else trimSpaceChars (name.filter (fun c => !(invalidFileChars.contains c)))) = []
  · rw [if_pos hemp]
    refine ⟨by decide, by decide, by decide⟩
  · rw [if_neg hemp]
    refine ⟨?_, ?_, hemp⟩
    · intro c hc hbad
      have hc1 : c ∈ trimSpaceChars (name.filter (fun c => !(invalidFileChars.contains c))) := by
        by_cases hlen :
            (trimSpaceChars (name.filter (fun c => !(invalidFileChars.contains c)))).length > 100
        · rw [if_pos hlen] at hc
          exact List.Sublist.mem hc (List.take_sublist _ _)
        · rwa [if_neg hlen] at hc
      have hc2 := mem_trimSpaceChars hc1
      rw [List.mem_filter] at hc2
      simp at hc2
      exact hc2.2 hbad
    · by_cases hlen :
          (trimSpaceChars (name.filter (fun c => !(invalidFileChars.contains c)))).length > 100
      · rw [if_pos hlen]
        simp [List.length_take]
      · rw [if_neg hlen]
        omega

/-
Lemmas about the progress emissions of the download read loop.
-/

lemma progressLoop_nonpos (tot : Int) (h : ¬ tot > 0) :
    ∀ (chunks : List Nat) (d : Int) (lp : ℚ), progressLoop tot chunks d lp = [] := by
  intro chunks
  induction chunks with
  | nil => intro d lp; rfl
  | cons n rest ih =>
    intro d lp
    simp only [progressLoop]
    split
    · exact ih _ _
    · exact ih _ _

lemma progressLoop_sum_zero (tot : Int) :
    ∀ (chunks : List Nat), chunks.sum = 0 →
      ∀ (d : Int) (lp : ℚ), progressLoop tot chunks d lp = [] := by
  intro chunks
  induction chunks with
  | nil => intro _ d lp; rfl
  | cons n rest ih =>
    intro hsum d lp
    have hn : n = 0 ∧ rest.sum = 0 := by
      simp only [List.sum_cons] at hsum
      omega
    simp only [progressLoop, hn.1]
    rw [if_neg (by omega)]
    exact ih hn.2 _ _

lemma progressLoop_bounds (tot : Int) (htot : 0 < tot) :
    ∀ (chunks : List Nat) (d : Int) (lp : ℚ), 0 ≤ d → d + (chunks.sum : Int) ≤ tot →
      ∀ q ∈ progressLoop tot chunks d lp, 0 < q ∧ q ≤ 1 := by
  intro chunks
  induction chunks with
  | nil => intro d lp _ _ q hq; simp [progressLoop] at hq
  | cons n rest ih =>
    intro d lp hd hsum q hq
    have hsums : d + (n : Int) + (rest.sum : Int) ≤ tot := by
      simp only [List.sum_cons] at hsum
      push_cast at hsum ⊢
      omega
    simp only [progressLoop] at hq
    split at hq
    case isTrue hn =>
      have hd2 : 0 ≤ d + (n : Int) := by omega
      split at hq
      case isTrue hcond =>
        rcases List.mem_cons.mp hq with hq | hq
        · subst hq
          constructor
          · apply div_pos
            · exact_mod_cast (by omega : (0 : Int) < d + (n : Int))
            · exact_mod_cast htot
          · rw [div_le_one (by exact_mod_cast htot : (0:ℚ) < (tot : ℚ))]
            have : d + (n : Int) ≤ tot := by
              have : (0 : Int) ≤ (rest.sum : Int) := by positivity
              omega
            exact_mod_cast this
        · exact ih _ _ hd2 hsums q hq
      case isFalse => exact ih _ _ hd2 hsums q hq
    case isFalse hn =>
      have : d + (rest.sum : Int) ≤ tot := by omega
      exact ih _ _ hd this q hq

lemma progressLoop_chain (tot : Int) (htot : 0 < tot) :
    ∀ (chunks : List Nat) (d : Int) (lp : ℚ), lp ≤ ((d : Int) : ℚ) / ((tot : Int) : ℚ) →
      List.Chain (fun x y => x < y ∧ (1/100 ≤ y - x ∨ 1 ≤ y)) lp
        (progressLoop tot chunks d lp) := by
  intro chunks
  induction chunks with
  | nil => intro d lp _; simp [progressLoop]
  | cons n rest ih =>
    intro d lp hlp
    have htQ : (0 : ℚ) < ((tot : Int) : ℚ) := by exact_mod_cast htot
    simp only [progressLoop]
    split
    case isTrue hn =>
      have hdlt : ((d : Int) : ℚ) < ((d + (n : Int) : Int) : ℚ) := by
        exact_mod_cast (by omega : d < d + (n : Int))
      have hstep : ((d : Int) : ℚ) / ((tot : Int) : ℚ)
          < ((d + (n : Int) : Int) : ℚ) / ((tot : Int) : ℚ) :=
        div_lt_div_of_pos_right hdlt htQ
      split
      case isTrue hcond =>
        exact List.Chain.cons ⟨lt_of_le_of_lt hlp hstep, hcond⟩ (ih _ _ le_rfl)
      case isFalse hcond =>
        exact ih _ _ (le_trans hlp (le_of_lt hstep))
    case isFalse hn => exact ih _ _ hlp

lemma progressLoop_last (tot : Int) (htot : 0 < tot) :
    ∀ (chunks : List Nat) (d : Int) (lp : ℚ), d < tot → d + (chunks.sum : Int) = tot →
      ∃ L, progressLoop tot chunks d lp = L ++ [(1 : ℚ)] := by
  intro chunks
  induction chunks with
  | nil =>
    intro d lp hlt hsum
    exfalso
    simp only [List.sum_nil, Int.natCast_zero, add_zero] at hsum
    omega
  | cons n rest ih =>
    intro d lp hlt hsum
    have hsums : d + (n : Int) + (rest.sum : Int) = tot := by
      simp only [List.sum_cons] at hsum
      push_cast at hsum ⊢
      omega
    by_cases hn : n > 0
    · by_cases hend : d + (n : Int) = tot
      · have hrs : rest.sum = 0 := by omega
        have hpercent : ((d + (n : Int) : Int) : ℚ) / ((tot : Int) : ℚ) = 1 := by
          rw [hend]
          exact div_self (by exact_mod_cast (ne_of_gt htot))
        refine ⟨[], ?_⟩
        simp only [progressLoop, hpercent]
        rw [if_pos hn, if_pos (Or.inr le_rfl), progressLoop_sum_zero tot rest hrs]
        simp [htot]
      · have hlt2 : d + (n : Int) < tot := by
          have : (0 : Int) ≤ (rest.sum : Int) := by positivity
          omega
        simp only [progressLoop]
        rw [if_pos hn]
        by_cases hcond : (1:ℚ)/100 ≤ ((d + (n : Int) : Int) : ℚ) / ((tot : Int) : ℚ) - lp
            ∨ 1 ≤ ((d + (n : Int) : Int) : ℚ) / ((tot : Int) : ℚ)
        · rw [if_pos hcond]
          obtain ⟨L, hL⟩ := ih (d + (n : Int)) (((d + (n : Int) : Int) : ℚ) / ((tot : Int) : ℚ))
            hlt2 hsums
          exact ⟨((d + (n : Int) : Int) : ℚ) / ((tot : Int) : ℚ) :: L, by rw [hL]; simp [htot]⟩
        · rw [if_neg hcond]
          simpa [htot] using ih (d + (n : Int)) lp hlt2 hsums
    · have hn0 : n = 0 := by omega
      subst hn0
      simp only [progressLoop]
      rw [if_neg (by omega : ¬ (0 : Nat) > 0)]
      exact ih d lp hlt (by simpa using hsums)

/-- C5: for a sized download the emitted progress fractions are positive,
bounded by 1, strictly increasing, each emission advanced by at least one
percentage point over the previous one or reached 100 percent, the final
emission of a fully delivered download is exactly 1, and with no declared
total size nothing is emitted. -/
theorem claim_C5 (tot : Int) (chunks : List Nat) (h1 : 0 < tot)
    (h2 : (chunks.sum : Int) ≤ tot) :
    (∀ q ∈ downloadEvents tot chunks, 0 ≤ q ∧ q ≤ 1)
    ∧ List.Pairwise (fun x y => x ≤ y) (downloadEvents tot chunks)
    ∧ List.Chain (fun x y => 1/100 ≤ y - x ∨ 1 ≤ y) 0 (downloadEvents tot chunks)
    ∧ ((chunks.sum : Int) = tot → (downloadEvents tot chunks).getLast? = some 1)
    ∧ (∀ t2 : Int, t2 ≤ 0 → downloadEvents t2 chunks = []) := by
  have hch := progressLoop_chain tot h1 chunks 0 0 (by simp)
  refine ⟨?_, ?_, ?_, ?_, ?_⟩
  · intro q hq
    have := progressLoop_bounds tot h1 chunks 0 0 le_rfl (by simpa using h2) q hq
    exact ⟨le_of_lt this.1, this.2⟩
  · have hlt : List.Chain (fun x y : ℚ => x < y) 0 (downloadEvents tot chunks) :=
      hch.imp (fun a b h => h.1)
    have hpw := List.chain_iff_pairwise.mp hlt
    exact (List.Pairwise.of_cons hpw).imp le_of_lt
  · exact hch.imp (fun a b h => h.2)
  · intro hs
    obtain ⟨L, hL⟩ := progressLoop_last tot h1 chunks 0 0 h1 (by simpa using hs)
    rw [downloadEvents, hL, List.getLast?_concat]
  · intro t2 ht2
    exact progressLoop_nonpos t2 (by omega) chunks 0 0

/-- Closed instance of claim C5 at total size 100 with chunks 50 and 50,
discharging its hypotheses at that concrete input. -/
theorem claim_C5_witness :
    ((0 : Int) < 100 ∧ ((([50, 50] : List Nat).sum : Int) ≤ 100))
    ∧ ((∀ q ∈ downloadEvents 100 [50, 50], 0 ≤ q ∧ q ≤ 1)
      ∧ List.Pairwise (fun x y => x ≤ y) (downloadEvents 100 [50, 50])
      ∧ List.Chain (fun x y => 1/100 ≤ y - x ∨ 1 ≤ y) 0 (downloadEvents 100 [50, 50])
      ∧ ((([50, 50] : List Nat).sum : Int) = 100 →
          (downloadEvents 100 [50, 50]).getLast? = some 1)
      ∧ (∀ t2 : Int, t2 ≤ 0 → downloadEvents t2 [50, 50] = [])) :=
  ⟨⟨by decide, by decide⟩, claim_C5 100 [50, 50] (by decide) (by decide)⟩

/-- C4 counterexample: on the terminal build, a download whose destination
file already exists reports success without issuing a request, but it emits
no progress signal at all, contradicting the claim that a completion (100%)
progress signal is emitted immediately; the windowed build does emit it. -/
theorem claim_C4_counterexample :
    (downloadStepTUI true (FetchOutcome.stream 10 [10] none)).events = []
    ∧ (downloadStepTUI true (FetchOutcome.stream 10 [10] none)).requests = 0
    ∧ (downloadStepTUI true (FetchOutcome.stream 10 [10] none)).result = Except.ok ()
    ∧ (downloadStepGUI true (FetchOutcome.stream 10 [10] none)).events = [1] :=
  ⟨rfl, rfl, rfl, rfl⟩

/-- C4 (amended): when the destination file already exists, the download step
issues no network request and reports the task as complete; the windowed
build emits a completion (100%) progress signal immediately while the
terminal build emits no progress signal on this path; the destination still
exists afterwards, so a second invocation never fetches and again reports
completion in the same way. -/
theorem claim_C4 (fetch f2 : FetchOutcome) :
    downloadStepTUI true fetch = { result := Except.ok (), events := [], requests := 0 }
    ∧ downloadStepGUI true fetch = { result := Except.ok (), events := [1], requests := 0 }
    ∧ fileExistsAfter true fetch = true
    ∧ downloadStepTUI (fileExistsAfter true fetch) f2
        = { result := Except.ok (), events := [], requests := 0 }
    ∧ downloadStepGUI (fileExistsAfter true fetch) f2
        = { result := Except.ok (), events := [1], requests := 0 } :=
  ⟨rfl, rfl, rfl, rfl, rfl⟩

lemma runBatchGUI_split (outDir : List Char) :
    ∀ tasks : List (Episode × Except (List Char) Unit),
      (runBatchGUI outDir tasks).1.length + (runBatchGUI outDir tasks).2.length = tasks.length
      ∧ (runBatchGUI outDir tasks).1 = tasks.filterMap (fun t =>
          match t.2 with
          | Except.ok _ => some (joinPath outDir (episodeFileName t.1))
          | Except.error _ => none) := by
  intro tasks
  induction tasks with
  | nil => exact ⟨rfl, rfl⟩
  | cons t rest ih =>
    obtain ⟨ep, o⟩ := t
    cases o with
    | error e =>
      constructor
      · have := ih.1
        simp only [runBatchGUI, List.length_cons, List.length]
        omega
      · simp [runBatchGUI, List.filterMap_cons, ih.2]
    | ok u =>
      constructor
      · have := ih.1
        simp only [runBatchGUI, List.length_cons, List.length]
        omega
      · simp [runBatchGUI, List.filterMap_cons, ih.2]

/-- C1 counterexample: in the terminal build, a batch of two selected
episodes whose first download fails (network error) and second would succeed
does not end in Done: the error message moves the state machine to Error, the
cursor stays at 0 of 2, no file is written, and the second episode is never
attempted. -/
theorem claim_C1_counterexample :
    (let s1 := update sampleSelecting (Msg.keyMsg ['e','n','t','e','r'])
     let s2 := update s1.1 Msg.startDownloadM
     let r := runBatchTUI [Except.error ['n'], Except.ok ()] s2.1 s2.2
     r.1.state = AppState.error ∧ ¬ r.1.state = AppState.done ∧ r.2 = []
       ∧ r.1.downloadIndex = 0 ∧ r.1.downloadTotal = 2 ∧ r.1.downloaded = []) := by
  decide

/-- C1 (amended): in the windowed build's download loop a per-episode error
fails only that task: every selected episode is attempted, the files on disk
are exactly those of the successful tasks, and a batch whose first download
fails and second succeeds completes with the successful file on disk and one
reported failure.  In the terminal build, a per-episode download error moves
the state machine to the Error state without advancing the cursor and with no
further download command, aborting the batch. -/
theorem claim_C1 (outDir err e : List Char) (e1 e2 : Episode) (m : Model)
    (tasks : List (Episode × Except (List Char) Unit)) :
    runBatchGUI outDir [(e1, Except.error err), (e2, Except.ok ())]
        = ([joinPath outDir (episodeFileName e2)], [err])
    ∧ (runBatchGUI outDir tasks).1.length + (runBatchGUI outDir tasks).2.length = tasks.length
    ∧ (runBatchGUI outDir tasks).1 = tasks.filterMap (fun t =>
        match t.2 with
        | Except.ok _ => some (joinPath outDir (episodeFileName t.1))
        | Except.error _ => none)
    ∧ (update m (Msg.errMsg e)).1.state = AppState.error
    ∧ (update m (Msg.errMsg e)).1.downloadIndex = m.downloadIndex
    ∧ (update m (Msg.errMsg e)).2 = Cmd.none :=
  ⟨rfl, (runBatchGUI_split outDir tasks).1, (runBatchGUI_split outDir tasks).2, rfl, rfl, rfl⟩

/-- C10: Update handles a download-completion message the same way in every
state: the filename is appended to the downloaded list, the cursor is
incremented, and the session moves to Done whenever the incremented cursor is
not below the total; in particular a cancel during Downloading resets the
total to 0 and returns to Selecting, after which a still-in-flight download
that completes moves the session from Selecting to Done. -/
lemma update_downloadComplete (m : Model) (f : List Char) :
    update m (Msg.downloadCompleteM f)
      = (if m.downloadIndex + 1 < m.downloadTotal
          then ({ m with downloaded := m.downloaded ++ [f]
                         downloadIndex := m.downloadIndex + 1
                         percent := 0 }, Cmd.downloadNext)
          else ({ m with downloaded := m.downloaded ++ [f]
                         downloadIndex := m.downloadIndex + 1
                         percent := 0
                         state := AppState.done }, Cmd.none)) := rfl

lemma update_cancel (m : Model) :
    update { m with state := AppState.downloading } (Msg.keyMsg ['e','s','c'])
      = ({ m with state := AppState.selecting, downloadIndex := 0, downloadTotal := 0,
                  percent := 0, downloaded := [] }, Cmd.none) := rfl

theorem claim_C10 (m : Model) (f : List Char) :
    (update m (Msg.downloadCompleteM f)).1.downloaded = m.downloaded ++ [f]
    ∧ (update m (Msg.downloadCompleteM f)).1.downloadIndex = m.downloadIndex + 1
    ∧ (update m (Msg.downloadCompleteM f)).1.state
        = (if m.downloadIndex + 1 < m.downloadTotal then m.state else AppState.done)
    ∧ (let mc := (update { m with state := AppState.downloading } (Msg.keyMsg ['e','s','c'])).1
       mc.state = AppState.selecting ∧ mc.downloadTotal = 0 ∧ mc.downloadIndex = 0
         ∧ (update mc (Msg.downloadCompleteM f)).1.state = AppState.done) := by
  refine ⟨?_, ?_, ?_, ?_⟩
  · rw [update_downloadComplete]
    split <;> rfl
  · rw [update_downloadComplete]
    split <;> rfl
  · rw [update_downloadComplete]
    split <;> rfl
  · rw [update_cancel]
    exact ⟨rfl, rfl, rfl, rfl⟩

/-- C8: in Selecting, the select-all intent sets every episode's selected
field to the negation of whether all episodes are currently selected: from a
mixed selection all become selected, and invoked again all become
deselected. -/
lemma update_selectAll (m : Model) (h : m.state = AppState.selecting) :
    update m (Msg.keyMsg ['a'])
      = ({ m with episodes := m.episodes.map (fun ep =>
              { ep with selected := !(m.episodes.all (fun x => x.selected)) }) },
         Cmd.none) := by
  obtain ⟨st, f2, f3, f4, f5, f6, f7, f8, f9, f10, f11, f12, f13, f14, f15, f16, f17⟩ := m
  dsimp only at h
  subst h
  rfl

theorem claim_C8 (m : Model) (h : ∃ e ∈ m.episodes, e.selected = false) :
    (update { m with state := AppState.selecting } (Msg.keyMsg ['a'])).1.episodes
        = m.episodes.map (fun ep => { ep with selected := !(m.episodes.all (fun x => x.selected)) })
    ∧ (∀ e ∈ (update { m with state := AppState.selecting } (Msg.keyMsg ['a'])).1.episodes,
        e.selected = true)
    ∧ (∀ e ∈ (update (update { m with state := AppState.selecting } (Msg.keyMsg ['a'])).1
          (Msg.keyMsg ['a'])).1.episodes, e.selected = false) := by
  have hall : m.episodes.all (fun x => x.selected) = false := by
    obtain ⟨e, he, hsel⟩ := h
    rw [Bool.eq_false_iff]
    intro htrue
    have := List.all_eq_true.mp htrue e he
    rw [hsel] at this
    exact Bool.false_ne_true this
  have h1 := update_selectAll { m with state := AppState.selecting } rfl
  have hall2 : (m.episodes.map (fun ep =>
      { ep with selected := !(m.episodes.all (fun x => x.selected)) })).all
        (fun x => x.selected) = true := by
    rw [List.all_eq_true]
    intro x hx
    obtain ⟨a, _, rfl⟩ := List.mem_map.mp hx
    simp [hall]
  refine ⟨by rw [h1], ?_, ?_⟩
  · intro e he
    rw [h1] at he
    have he2 : e ∈ m.episodes.map (fun ep =>
        { ep with selected := !(m.episodes.all (fun x => x.selected)) }) := he
    obtain ⟨a, _, rfl⟩ := List.mem_map.mp he2
    simp [hall]
  · intro e he
    rw [h1] at he
    have h2 := update_selectAll
      { m with state := AppState.selecting
               episodes := m.episodes.map (fun ep =>
                 { ep with selected := !(m.episodes.all (fun x => x.selected)) }) } rfl
    rw [h2] at he
    have he2 : e ∈ (m.episodes.map (fun ep =>
        { ep with selected := !(m.episodes.all (fun x => x.selected)) })).map (fun ep =>
          { ep with selected := !((m.episodes.map (fun ep =>
              { ep with selected := !(m.episodes.all (fun x => x.selected)) })).all
                (fun x => x.selected)) }) := he
    obtain ⟨a, _, rfl⟩ := List.mem_map.mp he2
    simp [hall2]

/-- Closed instance of claim C8 on a concrete two-episode mixed selection,
discharging its hypothesis there. -/
theorem claim_C8_witness :
    (∃ e ∈ sampleMixed.episodes, e.selected = false)
    ∧ ((update { sampleMixed with state := AppState.selecting } (Msg.keyMsg ['a'])).1.episodes
        = sampleMixed.episodes.map (fun ep =>
            { ep with selected := !(sampleMixed.episodes.all (fun x => x.selected)) })
      ∧ (∀ e ∈ (update { sampleMixed with state := AppState.selecting }
            (Msg.keyMsg ['a'])).1.episodes, e.selected = true)
      ∧ (∀ e ∈ (update (update { sampleMixed with state := AppState.selecting }
            (Msg.keyMsg ['a'])).1 (Msg.keyMsg ['a'])).1.episodes, e.selected = false)) :=
  ⟨by decide, claim_C8 sampleMixed (by decide)⟩

lemma loadPodcastMsg_shape (pid : List Char) (lk : Except (List Char) ItunesResp)
    (fr : Except (List Char) (List FeedItem)) :
    (∃ e, loadPodcastMsg pid lk fr = Msg.errMsg e)
    ∨ (∃ info eps, loadPodcastMsg pid lk fr = Msg.podcastLoadedM info eps) := by
  cases lk with
  | error e => exact Or.inl ⟨_, rfl⟩
  | ok resp =>
    simp only [loadPodcastMsg]
    by_cases h0 : resp.resultCount = 0
    · rw [if_pos h0]
      exact Or.inl ⟨_, rfl⟩
    · rw [if_neg h0]
      cases hres : resp.results with
      | nil => exact Or.inl ⟨_, rfl⟩
      | cons r rs =>
        dsimp only
        by_cases hf : r.feedURL = []
        · rw [if_pos hf]
          exact Or.inl ⟨_, rfl⟩
        · rw [if_neg hf]
          cases fr with
          | error e => exact Or.inl ⟨_, rfl⟩
          | ok items =>
            dsimp only
            cases hp : parseItems items 0 with
            | nil => exact Or.inl ⟨_, rfl⟩
            | cons e0 eps => exact Or.inr ⟨_, _, rfl⟩

/-- C7 counterexample: the input id1200361736 is an all-digit token prefixed
with the id marker, so under the claim the session should bypass search; but
isNumeric rejects it, the input becomes the search query, Init issues a
search command, and a non-empty search reply puts the session in the
SearchResults state. -/
theorem claim_C7_counterexample :
    (initialModel sampleIdInput [] SearchProvider.apple).podcastID = []
    ∧ (initialModel sampleIdInput [] SearchProvider.apple).searchQuery = sampleIdInput
    ∧ initCommand (initialModel sampleIdInput [] SearchProvider.apple) false
        = Cmd.searchAppleCmd sampleIdInput
    ∧ (update (initialModel sampleIdInput [] SearchProvider.apple)
        (Msg.searchResultsM [sampleResult])).1.state = AppState.searchResults := by
  decide

/-- C7 (amended): for a startup input that is a purely all-digit token, the
session bypasses search: the input becomes the podcast ID, Init issues the
catalog-lookup command (a single lookup followed by one feed parse, the two
interactions of loadPodcastMsg), its reply never puts the session in
SearchResults, and on success the session moves from Loading directly to
Selecting.  An input carrying the id marker is treated as a search query
instead; the marker is only stripped inside the lookup itself. -/
theorem claim_C7 (input dir : List Char) (prov : SearchProvider) (creds : Bool)
    (h : isNumeric input = true) :
    (initialModel input dir prov).podcastID = input
    ∧ (initialModel input dir prov).searchQuery = []
    ∧ (initialModel input dir prov).state = AppState.loading
    ∧ initCommand (initialModel input dir prov) creds = Cmd.loadByID input
    ∧ (∀ lk fr, ¬ (update (initialModel input dir prov) (loadPodcastMsg input lk fr)).1.state
          = AppState.searchResults)
    ∧ (∀ lk fr info eps, loadPodcastMsg input lk fr = Msg.podcastLoadedM info eps →
        (update (initialModel input dir prov) (loadPodcastMsg input lk fr)).1.state
          = AppState.selecting) := by
  have hm : initialModel input dir prov
      = { baseModel with baseDir := dir, searchProvider := prov, podcastID := input } := by
    unfold initialModel
    rw [if_pos h]
  refine ⟨by rw [hm], by rw [hm]; rfl, by rw [hm]; rfl, by rw [hm]; rfl, ?_, ?_⟩
  · intro lk fr
    rcases loadPodcastMsg_shape input lk fr with ⟨e, he⟩ | ⟨info, eps, he⟩
    · rw [he]
      intro hc
      have h2 : AppState.error = AppState.searchResults := hc
      exact AppState.noConfusion h2
    · rw [he]
      intro hc
      have h2 : AppState.selecting = AppState.searchResults := hc
      exact AppState.noConfusion h2
  · intro lk fr info eps he
    rw [he]
    rfl

/-- Closed instance of claim C7 at the concrete all-digit identifier,
discharging its hypothesis there. -/
theorem claim_C7_witness :
    isNumeric sampleNumericInput = true
    ∧ ((initialModel sampleNumericInput [] SearchProvider.apple).podcastID = sampleNumericInput
      ∧ (initialModel sampleNumericInput [] SearchProvider.apple).searchQuery = []
      ∧ (initialModel sampleNumericInput [] SearchProvider.apple).state = AppState.loading
      ∧ initCommand (initialModel sampleNumericInput [] SearchProvider.apple) false
          = Cmd.loadByID sampleNumericInput
      ∧ (∀ lk fr, ¬ (update (initialModel sampleNumericInput [] SearchProvider.apple)
            (loadPodcastMsg sampleNumericInput lk fr)).1.state = AppState.searchResults)
      ∧ (∀ lk fr info eps, loadPodcastMsg sampleNumericInput lk fr = Msg.podcastLoadedM info eps →
          (update (initialModel sampleNumericInput [] SearchProvider.apple)
            (loadPodcastMsg sampleNumericInput lk fr)).1.state = AppState.selecting)) :=
  ⟨by decide, claim_C7 sampleNumericInput [] SearchProvider.apple false (by decide)⟩

lemma hasAudio_false {it : FeedItem} (h : findAudioURL it.enclosures = []) :
    hasAudio it = false := by
  simp [hasAudio, h]

lemma hasAudio_true {it : FeedItem} (h : ¬ findAudioURL it.enclosures = []) :
    hasAudio it = true := by
  unfold hasAudio
  cases hfa : findAudioURL it.enclosures with
  | nil => exact absurd hfa h
  | cons a l => rfl

lemma parseItems_map_index : ∀ (items : List FeedItem) (i : Nat),
    (parseItems items i).map (fun e => e.index)
      = (List.enumFrom (i + 1) items).filterMap
          (fun p => if hasAudio p.2 then some p.1 else none) := by
  intro items
  induction items with
  | nil => intro i; rfl
  | cons it rest ih =>
    intro i
    by_cases ha : findAudioURL it.enclosures = []
    · rw [show parseItems (it :: rest) i = parseItems rest (i + 1) from by
        simp [parseItems, ha]]
      rw [ih (i + 1)]
      simp [List.enumFrom_cons, List.filterMap_cons, hasAudio_false ha]
    · rw [show parseItems (it :: rest) i
          = { index := i + 1, title := it.title, description := it.description,
              audioURL := findAudioURL it.enclosures, duration := it.duration,
              selected := false } :: parseItems rest (i + 1) from by
        simp [parseItems, ha]]
      rw [List.map_cons, ih (i + 1)]
      simp [List.enumFrom_cons, List.filterMap_cons, hasAudio_true ha]

/-- C9: each episode's ordinal index is assigned at feed-parse time as the
1-based position of its item in the feed's item order, items without an audio
enclosure being skipped without shifting later indices; the selected
subsequence is a sublist preserving the stored fields; the download task for
the episode under the cursor builds its file name from that episode's stored
index, and the ID3 track frame holds the same stored index as text. -/
theorem claim_C9 (items : List FeedItem) (eps : List Episode) (m : Model) (ep : Episode)
    (openOk : Bool) (t0 : ID3Tag) (info : PodcastInfo)
    (h : (getSelectedEpisodes m.episodes)[m.downloadIndex]? = some ep) :
    (parseItems items 0).map (fun e => e.index)
      = (List.enumFrom 1 items).filterMap (fun p => if hasAudio p.2 then some p.1 else none)
    ∧ (getSelectedEpisodes eps).Sublist eps
    ∧ downloadNextTask m = some (joinPath m.outputDir (episodeFileName ep), ep.audioURL)
    ∧ episodeFileName ep
        = pad3 ep.index ++ " - ".toList ++ sanitizeFilename ep.title ++ ".mp3".toList
    ∧ (addID3Tags openOk t0 ep info).trackFrames
        = (if openOk then t0 else emptyID3Tag).trackFrames ++ [(Nat.repr ep.index).toList] := by
  refine ⟨parseItems_map_index items 0, List.filter_sublist _, ?_, rfl, ?_⟩
  · unfold downloadNextTask
    rw [h]
  · cases openOk <;> rfl

/-- Closed instance of claim C9: a selected episode whose stored ordinal index
is 3 sits at position 0 of the selected subsequence, and the theorem applies
with its hypothesis discharged there. -/
theorem claim_C9_witness :
    (getSelectedEpisodes sampleSkip.episodes)[sampleSkip.downloadIndex]? = some sampleEpisodeIdx3
    ∧ ((parseItems [sampleItemNoAudio, sampleItemAudio] 0).map (fun e => e.index)
        = (List.enumFrom 1 [sampleItemNoAudio, sampleItemAudio]).filterMap
            (fun p => if hasAudio p.2 then some p.1 else none)
      ∧ (getSelectedEpisodes [sampleUnselected, sampleEpisodeIdx3]).Sublist
          [sampleUnselected, sampleEpisodeIdx3]
      ∧ downloadNextTask sampleSkip
          = some (joinPath sampleSkip.outputDir (episodeFileName sampleEpisodeIdx3),
              sampleEpisodeIdx3.audioURL)
      ∧ episodeFileName sampleEpisodeIdx3
          = pad3 sampleEpisodeIdx3.index ++ " - ".toList
              ++ sanitizeFilename sampleEpisodeIdx3.title ++ ".mp3".toList
      ∧ (addID3Tags false emptyID3Tag sampleEpisodeIdx3 emptyPodcastInfo).trackFrames
          = (if false then emptyID3Tag else emptyID3Tag).trackFrames
              ++ [(Nat.repr sampleEpisodeIdx3.index).toList]) :=
  ⟨by decide, claim_C9 [sampleItemNoAudio, sampleItemAudio] [sampleUnselected, sampleEpisodeIdx3]
    sampleSkip sampleEpisodeIdx3 false emptyID3Tag emptyPodcastInfo (by decide)⟩

end PodcastGo
